import Mathlib

/-!
Shallow embedding of the md-preview terminal renderer (src/main.rs).

The program walks a linear stream of pulldown-cmark events and writes
colored text to stdout.  We model one iteration of the event loop as a
pure function `renderEvent : Args → RenderState → Event → RenderState × List Out`,
where `Out` records every `write!`/`writeln!` payload and every
`set_color`/`reset` call, in order.  `renderEvents` folds it over a list
of events, concatenating the emitted output.
-/

namespace MdPreview

/-- Column alignment of a table, mirroring pulldown_cmark::Alignment. -/
inductive Alignment
  | none
  | left
  | center
  | right
deriving Repr, DecidableEq

/-- Heading levels H1..H6, mirroring pulldown_cmark::HeadingLevel. -/
inductive HeadingLevel
  | h1 | h2 | h3 | h4 | h5 | h6
deriving Repr, DecidableEq

/-- Numeric value of a heading level, mirroring `level as usize` (1..6). -/
def HeadingLevel.toNat : HeadingLevel → Nat
  | .h1 => 1
  | .h2 => 2
  | .h3 => 3
  | .h4 => 4
  | .h5 => 5
  | .h6 => 6

/-- Kind of a code block, mirroring pulldown_cmark::CodeBlockKind. -/
inductive CodeBlockKind
  | fenced (lang : String)
  | indented
deriving Repr, DecidableEq

/-- Start tags, mirroring pulldown_cmark::Tag (the variants the renderer
matches, plus representative variants that fall into its `_ => {}` arm:
`htmlBlock`, `footnoteDefinition`, `metadataBlock`). -/
inductive Tag
  | paragraph
  | heading (level : HeadingLevel)
  | strong
  | emphasis
  | strikethrough
  | blockQuote
  | codeBlock (kind : CodeBlockKind)
  | list (firstNumber : Option Nat)
  | item
  | link
  | image
  | table (alignments : List Alignment)
  | tableHead
  | tableRow
  | tableCell
  | htmlBlock
  | footnoteDefinition (name : String)
  | metadataBlock
deriving Repr, DecidableEq

/-- End tags, mirroring pulldown_cmark::TagEnd. -/
inductive TagEnd
  | paragraph
  | heading
  | strong
  | emphasis
  | strikethrough
  | blockQuote
  | codeBlock
  | list
  | item
  | link
  | image
  | tableCell
  | tableRow
  | tableHead
  | table
  | htmlBlock
  | footnoteDefinition
  | metadataBlock
deriving Repr, DecidableEq

/-- Events, mirroring pulldown_cmark::Event (the variants the renderer
matches, plus representative variants for its catch-all arm: `html`,
`taskListMarker`). -/
inductive Event
  | start (tag : Tag)
  | endTag (tagEnd : TagEnd)
  | text (t : String)
  | code (c : String)
  | softBreak
  | hardBreak
  | rule
  | footnoteReference (name : String)
  | html (t : String)
  | taskListMarker (checked : Bool)
deriving Repr, DecidableEq

/-- The color specs defined at the top of main (lines 40-68); we record
only which spec a `set_color` call passes. -/
inductive ColorTag
  | headingColor
  | strongColor
  | emphasisColor
  | strikethroughColor
  | blockquoteColor
  | codeColor
  | fenceColor
  | ruleColor
  | tableHeaderColor
  | tableBorderColor
deriving Repr, DecidableEq

/-- One observable action on stdout: a `write!`/`writeln!` payload, a
`set_color` call, or a `reset` call. -/
inductive Out
  | str (t : String)
  | color (c : ColorTag)
  | reset
deriving Repr, DecidableEq

/-- Command-line options used by the render loop: `--symbol` and `--center`. -/
structure Args where
  symbol : Bool
  center : Nat
deriving Repr, DecidableEq

/-- The mutable variables of the render loop (main.rs lines 71-82). -/
structure RenderState where
  text_level : Nat
  in_code_block : Bool
  in_block_quote : Bool
  first_row : Bool
  in_code : Bool
  no_tab : Bool
  in_list : Bool
  in_table : Bool
  table_alignments : List Alignment
  current_row_cells : List String
  is_header_row : Bool
  column_widths : List Nat
deriving Repr, DecidableEq

/-- Initial values of the loop variables (main.rs lines 71-82). -/
def initState : RenderState :=
  { text_level := 0
    in_code_block := false
    in_block_quote := false
    first_row := false
    in_code := false
    no_tab := false
    in_list := false
    in_table := false
    table_alignments := []
    current_row_cells := []
    is_header_row := false
    column_widths := [] }

/-- `s.repeat(n)` on Rust strings: `n` copies of `s` concatenated. -/
def strRepeat (s : String) : Nat → String
  | 0 => ""
  | n + 1 => s ++ strRepeat s n

/-- A run of `n` spaces. -/
def spaces (n : Nat) : String := strRepeat " " n

/-- A run of `n` dashes. -/
def dashes (n : Nat) : String := strRepeat "-" n

/-- Rust `format!("{:<width$}", c)`: left-justify `c` in `width` columns,
padding with spaces on the right (no truncation when `c` is wider). -/
def padAlignLeft (w : Nat) (c : String) : String :=
  c ++ spaces (w - c.length)

/-- Rust `format!("{:>width$}", c)`: right-justify `c` in `width` columns. -/
def padAlignRight (w : Nat) (c : String) : String :=
  spaces (w - c.length) ++ c

/-- Rust `format!("{:^width$}", c)`: center `c` in `width` columns; the
extra space of an odd pad goes to the right. -/
def padAlignCenter (w : Nat) (c : String) : String :=
  let pad := w - c.length
  spaces (pad / 2) ++ c ++ spaces (pad - pad / 2)

/-- Cell formatting at TagEnd::TableRow (main.rs lines 276-281): justify
per the column's alignment, defaulting to left. -/
def fmtCell : Option Alignment → Nat → String → String
  | some .left, w, c => padAlignLeft w c
  | some .center, w, c => padAlignCenter w c
  | some .right, w, c => padAlignRight w c
  | _, w, c => padAlignLeft w c

/-- Header separator cell (main.rs lines 299-304): dash fill of the
column width, with a leading colon for Left/Center and a trailing colon
for Right. -/
def sepCell : Option Alignment → Nat → String
  | some .left, w => ":" ++ dashes w
  | some .center, w => ":" ++ dashes w
  | some .right, w => dashes w ++ ":"
  | _, w => dashes w

/-- Width widening at TagEnd::TableRow (main.rs lines 241-246): for each
cell index, push 0 if `column_widths` is too short, then take the max of
the recorded width and the cell's byte length (`String::len`). -/
def widenWidths : List Nat → List String → List Nat
  | ws, [] => ws
  | [], c :: cs => Nat.max 0 c.utf8ByteSize :: widenWidths [] cs
  | w :: ws, c :: cs => Nat.max w c.utf8ByteSize :: widenWidths ws cs

/-- `cells[last].push_str(t)` (and the `if let Some(last_cell)` pushes for
break events): append `t` to the final entry, doing nothing on an empty
list. -/
def appendLast : List String → String → List String
  | [], _ => []
  | [x], t => [x ++ t]
  | x :: y :: xs, t => x :: appendLast (y :: xs) t

/-- The per-cell part of the row printing loop (main.rs lines 274-291):
for each cell, the justified text (in the header color on a header row),
then a border `|` in the border color, then a reset. -/
def rowCellsOut (aligns : List Alignment) (widths : List Nat) (isHeader : Bool) :
    Nat → List String → List Out
  | _, [] => []
  | i, c :: cs =>
    let f := fmtCell (aligns.get? i) (widths.getD i 0) c
    (if isHeader then [Out.color .tableHeaderColor, Out.str f] else [Out.str f]) ++
      [Out.color .tableBorderColor, Out.str "|", Out.reset] ++
      rowCellsOut aligns widths isHeader (i + 1) cs

/-- The per-column part of the separator printing loop (main.rs lines
298-307): each separator cell followed by a border `|`. -/
def sepCellsOut (aligns : List Alignment) : Nat → List Nat → List Out
  | _, [] => []
  | i, w :: ws =>
    [Out.str (sepCell (aligns.get? i) w), Out.str "|"] ++ sepCellsOut aligns (i + 1) ws

/-- One iteration of the render loop (main.rs lines 85-425): consume one
event, mutate the loop variables, and emit output actions in order. -/
def renderEvent (a : Args) (s : RenderState) (e : Event) : RenderState × List Out :=
  match e with
  | .start tag =>
    match tag with
    | .paragraph => (s, [.reset])
    | .heading lv =>
      let lvl := lv.toNat - 1 + a.center
      let hashes := strRepeat "#" (lvl + 1)
      let tabs := strRepeat "\t" lvl
      ({ s with no_tab := true, text_level := lvl },
        [.reset, .str "\n", .color .headingColor] ++
          (if a.symbol then [.str (tabs ++ hashes ++ " ")] else [.str tabs]))
    | .strong =>
      ({ s with no_tab := true },
        [.reset, .color .strongColor] ++ (if a.symbol then [.str "**"] else []))
    | .emphasis =>
      ({ s with no_tab := true },
        [.reset, .color .emphasisColor] ++ (if a.symbol then [.str "*"] else []))
    | .strikethrough =>
      ({ s with no_tab := true },
        [.reset, .color .strikethroughColor] ++ (if a.symbol then [.str "~~"] else []))
    | .blockQuote =>
      ({ s with in_block_quote := true, first_row := true },
        [.reset, .color .blockquoteColor, .str ("\n" ++ strRepeat "\t" s.text_level ++ "> ")])
    | .codeBlock kind =>
      let lang := match kind with
        | .fenced l => l
        | .indented => ""
      if a.symbol then
        ({ s with in_code_block := true },
          [.reset, .str (strRepeat "\t" s.text_level), .color .fenceColor, .str "```",
            .color .codeColor, .str lang, .str "\n"])
      else
        ({ s with in_code_block := true }, [.reset, .color .codeColor])
    | .list _ => (s, [.reset])
    | .item =>
      ({ s with in_list := true },
        [.reset, .str (strRepeat "\t" s.text_level), .str "- "])
    | .link => (s, [.reset, .str "["])
    | .image => (s, [.reset, .str "!["])
    | .table aligns =>
      ({ s with
          in_table := true
          table_alignments := aligns
          column_widths := []
          current_row_cells := [] },
        [.reset, .str "\n"])
    | .tableHead => ({ s with is_header_row := true }, [.reset])
    | .tableRow => ({ s with current_row_cells := [] }, [.reset])
    | .tableCell => (s, [.reset])
    | .htmlBlock => (s, [.reset])
    | .footnoteDefinition _ => (s, [.reset])
    | .metadataBlock => (s, [.reset])
  | .endTag te =>
    match te with
    | .paragraph => (s, [.str "\n"])
    | .heading => ({ s with no_tab := false }, [.str "\n", .reset])
    | .strong => (s, (if a.symbol then [.str "**"] else []) ++ [.reset])
    | .emphasis => (s, (if a.symbol then [.str "*"] else []) ++ [.reset])
    | .strikethrough => (s, (if a.symbol then [.str "~~"] else []) ++ [.reset])
    | .blockQuote =>
      ({ s with in_block_quote := false, first_row := false }, [.str "\n"])
    | .codeBlock =>
      ({ s with in_code_block := false },
        [.str (strRepeat "\t" s.text_level), .color .fenceColor] ++
          (if a.symbol then [.str "```"] else []) ++ [.str "\n"])
    | .list => (s, [.str "\n"])
    | .item => ({ s with in_list := false }, [.str "\n"])
    | .link => (s, [.str ")"])
    | .image => (s, [.str ")"])
    | .tableCell => (s, [])
    | .tableRow =>
      let widths2 := widenWidths s.column_widths s.current_row_cells
      let rowOut :=
        [Out.color .tableBorderColor, Out.str "|", Out.reset] ++
          rowCellsOut s.table_alignments widths2 s.is_header_row 0 s.current_row_cells ++
          [Out.str "\n"]
      let sepOut :=
        if s.is_header_row then
          [Out.color .tableBorderColor, Out.str "|"] ++
            sepCellsOut s.table_alignments 0 widths2 ++ [Out.str "\n", Out.reset]
        else []
      ({ s with column_widths := widths2, is_header_row := false }, rowOut ++ sepOut)
    | .tableHead => (s, [])
    | .table =>
      ({ s with in_table := false, table_alignments := [], column_widths := [] },
        [.str "\n"])
    | .htmlBlock => (s, [])
    | .footnoteDefinition => (s, [])
    | .metadataBlock => (s, [])
  | .text t =>
    if s.in_table then
      if s.current_row_cells.isEmpty then
        ({ s with current_row_cells := [t] }, [.str t])
      else
        ({ s with current_row_cells := appendLast s.current_row_cells t }, [])
    else
      let out1 :=
        if !s.in_list && !s.no_tab && !s.in_block_quote && !s.in_code then
          [Out.str (strRepeat "\t" s.text_level)]
        else []
      let stage2 :=
        if s.in_block_quote && s.first_row && !s.in_code then
          ({ s with first_row := false }, ([] : List Out))
        else if s.in_block_quote && !s.no_tab && !s.in_code then
          (s, [Out.str (strRepeat "\t" s.text_level ++ "  ")])
        else (s, [])
      if stage2.1.in_code then
        ({ stage2.1 with in_code := false }, out1 ++ stage2.2 ++ [.str "~", .str t])
      else
        (stage2.1, out1 ++ stage2.2 ++ [.str t])
  | .code c =>
    if s.in_table then
      if s.current_row_cells.isEmpty then
        ({ s with current_row_cells := ["`" ++ c ++ "`"] }, [])
      else
        ({ s with current_row_cells := appendLast s.current_row_cells ("`" ++ c ++ "`") }, [])
    else
      let body := Out.str (if a.symbol then "`" ++ c ++ "`" else c)
      if s.in_code_block then
        (s, [.str (strRepeat "\t" s.text_level), .color .codeColor, body, .reset])
      else
        ({ s with in_code := true }, [.color .codeColor, body, .reset])
  | .softBreak =>
    if s.in_table then
      ({ s with current_row_cells := appendLast s.current_row_cells " " }, [])
    else
      ({ s with in_list := false }, [.str "\n"])
  | .hardBreak =>
    if s.in_table then
      ({ s with current_row_cells := appendLast s.current_row_cells "\n" }, [])
    else
      (s, [.str "\n"])
  | .rule =>
    (s, [.str "\n", .color .ruleColor,
      .str (strRepeat "\t" s.text_level ++ strRepeat "---" (s.text_level + 1)),
      .str "\n", .reset])
  | .footnoteReference n => (s, [.str ("[^" ++ n ++ "]")])
  | .html _ => (s, [])
  | .taskListMarker _ => (s, [])

/-- Fold of `renderEvent` over an event list, concatenating outputs. -/
def renderEvents (a : Args) (s : RenderState) : List Event → RenderState × List Out
  | [] => (s, [])
  | e :: es =>
    let step1 := renderEvent a s e
    let rest := renderEvents a step1.1 es
    (rest.1, step1.2 ++ rest.2)

/-- The text payloads of an output trace, disregarding color directives. -/
def textOut (l : List Out) : List String :=
  l.filterMap fun o =>
    match o with
    | .str t => some t
    | _ => none

/-- An event is a table boundary when it opens or closes a table. -/
def isTableBoundary : Event → Bool
  | .start (.table _) => true
  | .endTag .table => true
  | _ => false

/-- Default options: no symbol echo, no centering. -/
def argsPlain : Args := { symbol := false, center := 0 }

/-- The event sequence pulldown-cmark produces for a table with header
cells Name and Age (alignments Left, Right) and one data row with cells
Ann and 30.  The header cells are children of TableHead; only the body
row is wrapped in TableRow events. -/
def c1Events : List Event :=
  [ .start (.table [.left, .right]), .start .tableHead,
    .start .tableCell, .text "Name", .endTag .tableCell,
    .start .tableCell, .text "Age", .endTag .tableCell,
    .endTag .tableHead,
    .start .tableRow,
    .start .tableCell, .text "Ann", .endTag .tableCell,
    .start .tableCell, .text "30", .endTag .tableCell,
    .endTag .tableRow,
    .endTag .table ]

/-- The event sequence pulldown-cmark produces for a header-only table
with cells Name and Age (alignments Left, Right) and zero data rows. -/
def c2Events : List Event :=
  [ .start (.table [.left, .right]), .start .tableHead,
    .start .tableCell, .text "Name", .endTag .tableCell,
    .start .tableCell, .text "Age", .endTag .tableCell,
    .endTag .tableHead,
    .endTag .table ]

end MdPreview

namespace MdPreview

/-- Every heading level maps to a numeric value of at least 1. -/
theorem HeadingLevel.one_le_toNat (lv : HeadingLevel) : 1 ≤ lv.toNat := by
  cases lv <;> simp [HeadingLevel.toNat]

/-- The hash run of a heading has `text_level + 1 = level + center` characters. -/
theorem heading_hash_count (lv : HeadingLevel) (c : Nat) :
    lv.toNat - 1 + c + 1 = lv.toNat + c := by
  have := lv.one_le_toNat
  omega

/-- Widening the recorded column widths never shortens the list. -/
theorem widenWidths_length (cs : List String) : ∀ ws : List Nat,
    ws.length ≤ (widenWidths ws cs).length := by
  induction cs with
  | nil => intro ws; simp [widenWidths]
  | cons c cs ih =>
    intro ws
    cases ws with
    | nil => simp
    | cons w ws => simpa [widenWidths] using ih ws

/-- Widening the recorded column widths never decreases an entry. -/
theorem widenWidths_getD (cs : List String) : ∀ (ws : List Nat) (i : Nat),
    ws.getD i 0 ≤ (widenWidths ws cs).getD i 0 := by
  induction cs with
  | nil => intro ws i; simp [widenWidths]
  | cons c cs ih =>
    intro ws i
    cases ws with
    | nil => simp
    | cons w ws =>
      cases i with
      | zero => simpa [widenWidths] using Nat.le_max_left w c.utf8ByteSize
      | succ i => simpa [widenWidths] using ih ws i

/-- Apart from the events that open or close a table, every event either
leaves `column_widths` unchanged or replaces it by the widened list. -/
theorem renderEvent_column_widths (a : Args) (s : RenderState) (e : Event)
    (h : isTableBoundary e = false) :
    (renderEvent a s e).1.column_widths = s.column_widths ∨
    (renderEvent a s e).1.column_widths =
      widenWidths s.column_widths s.current_row_cells := by
  cases e with
  | start tag =>
    cases tag
    case table al => simp [isTableBoundary] at h
    all_goals (left; simp only [renderEvent] <;> (repeat' split) <;> rfl)
  | endTag te =>
    cases te
    case table => simp [isTableBoundary] at h
    case tableRow => right; rfl
    all_goals (left; simp only [renderEvent] <;> (repeat' split) <;> rfl)
  | text t => left; simp only [renderEvent] <;> (repeat' split) <;> rfl
  | code c => left; simp only [renderEvent] <;> (repeat' split) <;> rfl
  | softBreak => left; simp only [renderEvent] <;> (repeat' split) <;> rfl
  | hardBreak => left; simp only [renderEvent] <;> (repeat' split) <;> rfl
  | rule => left; rfl
  | footnoteReference n => left; rfl
  | html t => left; rfl
  | taskListMarker b => left; rfl

/-- Appending text to the final cell preserves the number of cells. -/
theorem appendLast_length (t : String) : ∀ l : List String,
    (appendLast l t).length = l.length := by
  intro l
  induction l with
  | nil => simp [appendLast]
  | cons x xs ih =>
    cases xs with
    | nil => simp [appendLast]
    | cons y ys => simpa [appendLast] using ih

/-- No single event can grow `current_row_cells` beyond one entry. -/
theorem renderEvent_cells_length (a : Args) (s : RenderState) (e : Event)
    (h : s.current_row_cells.length ≤ 1) :
    (renderEvent a s e).1.current_row_cells.length ≤ 1 := by
  cases e with
  | start tag =>
    cases tag <;> simp only [renderEvent] <;> (repeat' split) <;>
      first | exact h | simp
  | endTag te =>
    cases te <;> simp only [renderEvent] <;> (repeat' split) <;>
      first | exact h | simp
  | text t =>
    simp only [renderEvent] <;> (repeat' split) <;>
      first | exact h | simpa [appendLast_length] using h | simp
  | code c =>
    simp only [renderEvent] <;> (repeat' split) <;>
      first | exact h | simpa [appendLast_length] using h | simp
  | softBreak =>
    simp only [renderEvent] <;> (repeat' split) <;>
      first | exact h | simpa [appendLast_length] using h
  | hardBreak =>
    simp only [renderEvent] <;> (repeat' split) <;>
      first | exact h | simpa [appendLast_length] using h
  | rule => exact h
  | footnoteReference n => exact h
  | html t => exact h
  | taskListMarker b => exact h

/-- No event sequence can grow `current_row_cells` beyond one entry. -/
theorem renderEvents_cells_length (a : Args) (es : List Event) : ∀ s : RenderState,
    s.current_row_cells.length ≤ 1 →
    (renderEvents a s es).1.current_row_cells.length ≤ 1 := by
  induction es with
  | nil => intro s h; simpa [renderEvents] using h
  | cons e es ih =>
    intro s h
    simpa [renderEvents] using ih _ (renderEvent_cells_length a s e h)

/-- Justifying a cell only adds space padding around its text. -/
theorem fmtCell_parts (al : Option Alignment) (w : Nat) (c : String) :
    ∃ p q, fmtCell al w c = p ++ c ++ q := by
  match al with
  | some .left =>
    exact ⟨"", spaces (w - c.length), by simp [fmtCell, padAlignLeft]⟩
  | some .center =>
    exact ⟨spaces ((w - c.length) / 2), spaces ((w - c.length) - (w - c.length) / 2),
      by simp [fmtCell, padAlignCenter]⟩
  | some .right =>
    exact ⟨spaces (w - c.length), "", by simp [fmtCell, padAlignRight]⟩
  | some .none =>
    exact ⟨"", spaces (w - c.length), by simp [fmtCell, padAlignLeft]⟩
  | none =>
    exact ⟨"", spaces (w - c.length), by simp [fmtCell, padAlignLeft]⟩

/-- When the row buffer holds a single cell, the row-end output contains
that cell's text, surrounded only by space padding. -/
theorem rowOut_mem_str (a : Args) (s1 : RenderState) (cell : String)
    (hc : s1.current_row_cells = [cell]) :
    ∃ p q, Out.str (p ++ cell ++ q) ∈ (renderEvent a s1 (.endTag .tableRow)).2 := by
  obtain ⟨p, q, hf⟩ := fmtCell_parts (s1.table_alignments.get? 0)
    ((widenWidths s1.column_widths [cell]).getD 0 0) cell
  refine ⟨p, q, ?_⟩
  rw [← hf]
  cases hh : s1.is_header_row <;>
    simp [renderEvent, rowCellsOut, hc, hh]

/-- C1: the spec requires column widths [4,3] with "Age"/"30"
right-justified and the separator immediately after the header row; the
code instead merges every row into a single cell, echoes the first cell
text of each row raw, computes widths [5] from the merged data cell
"Ann30", never prints the header as a justified row, and emits the
separator after the first data row.  This theorem evaluates the renderer
on the claim's table and exhibits the divergent output. -/
theorem c1_table_example_bug :
    (renderEvents argsPlain initState (c1Events.take 17)).1.column_widths = [5] ∧
    ([5] : List Nat) ≠ [4, 3] ∧
    (renderEvents argsPlain initState c1Events).2 =
      [.reset, .str "\n", .reset, .reset, .str "Name", .reset, .reset, .reset,
        .str "Ann", .reset,
        .color .tableBorderColor, .str "|", .reset,
        .color .tableHeaderColor, .str "Ann30",
        .color .tableBorderColor, .str "|", .reset, .str "\n",
        .color .tableBorderColor, .str "|", .str ":-----", .str "|", .str "\n", .reset,
        .str "\n"] := by
  exact ⟨rfl, by decide, rfl⟩

/-- C2: the spec requires a header-only table to still emit the
justified header row and its dash separator; on the event sequence
pulldown-cmark produces for a header-only table (header cells inside
TableHead, no TableRow wrapper) the code emits only a raw echo of the
first header cell and blank lines — no justified row and no separator —
because rows are printed only at TableRow End.  This theorem evaluates
the renderer on that sequence and exhibits the full output. -/
theorem c2_header_only_table_bug :
    (renderEvents argsPlain initState c2Events).2 =
      [.reset, .str "\n", .reset, .reset, .str "Name", .reset, .str "\n"] ∧
    textOut (renderEvents argsPlain initState c2Events).2 = ["\n", "Name", "\n"] := by
  exact ⟨rfl, rfl⟩

/-- C3: a heading Start sets `text_level` to exactly level - 1 + center,
strictly increasing in the level for a fixed center; and a level-1
heading at center 2 produces the same indentation level and the same
emitted output as a level-3 heading at center 0 (given the same symbol
flag). -/
theorem c3_heading_indent (a b : Args) (s s2 : RenderState) (lv lv2 : HeadingLevel) :
    ((renderEvent a s (.start (.heading lv))).1.text_level = lv.toNat - 1 + a.center) ∧
    (lv.toNat < lv2.toNat →
      (renderEvent a s (.start (.heading lv))).1.text_level <
        (renderEvent a s (.start (.heading lv2))).1.text_level) ∧
    (a.center = 2 → b.center = 0 → b.symbol = a.symbol →
      (renderEvent a s (.start (.heading .h1))).1.text_level =
        (renderEvent b s2 (.start (.heading .h3))).1.text_level ∧
      (renderEvent a s (.start (.heading .h1))).2 =
        (renderEvent b s2 (.start (.heading .h3))).2) := by
  refine ⟨by simp [renderEvent], ?_, ?_⟩
  · intro hlt
    have h1 := lv.one_le_toNat
    simp [renderEvent]
    omega
  · intro hc hb hs
    constructor
    · simp [renderEvent, HeadingLevel.toNat, hc, hb]
    · simp [renderEvent, HeadingLevel.toNat, hc, hb, hs]

/-- C3 witness: level 1 below level 2 at center 2, and the level-1 /
center-2 heading output equals the level-3 / center-0 heading output. -/
theorem c3_heading_indent_witness :
    (renderEvent { symbol := false, center := 2 } initState
      (.start (.heading .h1))).1.text_level = HeadingLevel.h1.toNat - 1 + 2 ∧
    (renderEvent { symbol := false, center := 2 } initState
      (.start (.heading .h1))).1.text_level <
      (renderEvent { symbol := false, center := 2 } initState
        (.start (.heading .h2))).1.text_level ∧
    (renderEvent { symbol := false, center := 2 } initState
      (.start (.heading .h1))).2 =
      (renderEvent { symbol := false, center := 0 } initState
        (.start (.heading .h3))).2 := by
  have h := c3_heading_indent { symbol := false, center := 2 } { symbol := false, center := 0 }
    initState initState .h1 .h2
  exact ⟨h.1, h.2.1 (by decide), (h.2.2 rfl rfl rfl).2⟩

/-- C4 counterexample: at level 1 with center 1 and symbol echo on, the
heading Start emits the hash run "##" (level + center characters), not
the "#" run of exactly `level` characters the claim requires. -/
theorem c4_hash_run_counterexample :
    (renderEvent { symbol := true, center := 1 } initState (.start (.heading .h1))).2 =
      [.reset, .str "\n", .color .headingColor, .str "\t## "] ∧
    (renderEvent { symbol := true, center := 1 } initState (.start (.heading .h1))).2 ≠
      [.reset, .str "\n", .color .headingColor, .str "\t# "] := by
  exact ⟨rfl, by decide⟩

/-- C4 amended: on a heading Start with symbol echo enabled the renderer
emits a color reset and a blank line, then switches to the heading color
and emits the indentation followed by a run of exactly
level + center_offset hash characters and a space. -/
theorem c4_heading_start_output (a : Args) (s : RenderState) (lv : HeadingLevel)
    (h : a.symbol = true) :
    (renderEvent a s (.start (.heading lv))).2 =
      [.reset, .str "\n", .color .headingColor,
        .str (strRepeat "\t" (lv.toNat - 1 + a.center) ++
          strRepeat "#" (lv.toNat + a.center) ++ " ")] := by
  rw [← heading_hash_count lv a.center]
  simp [renderEvent, h]

/-- C4 witness: the amended heading output at level 2, center 0. -/
theorem c4_heading_start_output_witness :
    (renderEvent { symbol := true, center := 0 } initState (.start (.heading .h2))).2 =
      [.reset, .str "\n", .color .headingColor,
        .str (strRepeat "\t" (HeadingLevel.h2.toNat - 1 + 0) ++
          strRepeat "#" (HeadingLevel.h2.toNat + 0) ++ " ")] :=
  c4_heading_start_output { symbol := true, center := 0 } initState .h2 rfl

/-- C5: with symbol echo on, a Strong Start emits exactly one literal
"**" as its only text and a Strong End emits exactly one literal "**" as
its only text, in every render state; and a Start/Text/End triple
outside a table emits exactly the texts "**", the enclosed text, "**". -/
theorem c5_strong_brackets (a : Args) (s : RenderState) (t : String)
    (hsym : a.symbol = true) :
    textOut (renderEvent a s (.start .strong)).2 = ["**"] ∧
    textOut (renderEvent a s (.endTag .strong)).2 = ["**"] ∧
    (s.in_table = false → s.in_code = false →
      textOut (renderEvents a s [.start .strong, .text t, .endTag .strong]).2 =
        ["**", t, "**"]) := by
  refine ⟨by simp [renderEvent, textOut, hsym], by simp [renderEvent, textOut, hsym], ?_⟩
  intro ht hc
  cases hbq : s.in_block_quote <;> cases hfr : s.first_row <;>
    simp [renderEvents, renderEvent, textOut, hsym, ht, hc, hbq, hfr]

/-- C5 witness: the bracketing at a concrete strong span. -/
theorem c5_strong_brackets_witness :
    textOut (renderEvent { symbol := true, center := 0 } initState
      (.start .strong)).2 = ["**"] ∧
    textOut (renderEvent { symbol := true, center := 0 } initState
      (.endTag .strong)).2 = ["**"] ∧
    textOut (renderEvents { symbol := true, center := 0 } initState
      [.start .strong, .text "hi", .endTag .strong]).2 = ["**", "hi", "**"] := by
  have h := c5_strong_brackets { symbol := true, center := 0 } initState "hi" rfl
  exact ⟨h.1, h.2.1, h.2.2 rfl rfl⟩

/-- C6: every event other than the table-opening Start and the
table-closing End leaves `column_widths` at least as long and every
recorded width at least as large: widths are monotonically non-decreasing
while a table is open. -/
theorem c6_column_widths_monotone (a : Args) (s : RenderState) (e : Event)
    (h : isTableBoundary e = false) :
    s.column_widths.length ≤ (renderEvent a s e).1.column_widths.length ∧
    ∀ i, s.column_widths.getD i 0 ≤ (renderEvent a s e).1.column_widths.getD i 0 := by
  rcases renderEvent_column_widths a s e h with heq | heq <;> rw [heq]
  · exact ⟨Nat.le_refl _, fun i => Nat.le_refl _⟩
  · exact ⟨widenWidths_length _ _, fun i => widenWidths_getD _ _ i⟩

/-- C6 witness: width monotonicity across a concrete text event. -/
theorem c6_column_widths_monotone_witness :
    initState.column_widths.length ≤
      (renderEvent { symbol := false, center := 0 } initState
        (.text "x")).1.column_widths.length ∧
    ∀ i, initState.column_widths.getD i 0 ≤
      (renderEvent { symbol := false, center := 0 } initState
        (.text "x")).1.column_widths.getD i 0 :=
  c6_column_widths_monotone { symbol := false, center := 0 } initState (.text "x") rfl

/-- C7 counterexample: an unrecognized Start event does not emit nothing;
it emits the color reset that precedes every Start dispatch. -/
theorem c7_unrecognized_counterexample :
    (renderEvent argsPlain initState (.start .htmlBlock)).2 = [.reset] ∧
    (renderEvent argsPlain initState (.start .htmlBlock)).2 ≠ ([] : List Out) := by
  exact ⟨rfl, by decide⟩

/-- C7 amended: every unrecognized event leaves the render state
unchanged and is never fatal (rendering continues with the remaining
events); an unrecognized Start emits exactly one color-reset directive
and no text, while unrecognized End and leaf events emit nothing at
all. -/
theorem c7_unrecognized_events (a : Args) (s : RenderState) (nm t : String) (b : Bool)
    (es : List Event) :
    ((renderEvent a s (.start .htmlBlock)).1 = s ∧
      (renderEvent a s (.start .htmlBlock)).2 = [.reset]) ∧
    ((renderEvent a s (.start (.footnoteDefinition nm))).1 = s ∧
      (renderEvent a s (.start (.footnoteDefinition nm))).2 = [.reset]) ∧
    ((renderEvent a s (.start .metadataBlock)).1 = s ∧
      (renderEvent a s (.start .metadataBlock)).2 = [.reset]) ∧
    ((renderEvent a s (.endTag .htmlBlock)).1 = s ∧
      (renderEvent a s (.endTag .htmlBlock)).2 = []) ∧
    ((renderEvent a s (.endTag .footnoteDefinition)).1 = s ∧
      (renderEvent a s (.endTag .footnoteDefinition)).2 = []) ∧
    ((renderEvent a s (.endTag .metadataBlock)).1 = s ∧
      (renderEvent a s (.endTag .metadataBlock)).2 = []) ∧
    ((renderEvent a s (.html t)).1 = s ∧ (renderEvent a s (.html t)).2 = []) ∧
    ((renderEvent a s (.taskListMarker b)).1 = s ∧
      (renderEvent a s (.taskListMarker b)).2 = []) ∧
    renderEvents a s (.html t :: es) = renderEvents a s es ∧
    renderEvents a s (.start .htmlBlock :: es) =
      ((renderEvents a s es).1, .reset :: (renderEvents a s es).2) := by
  refine ⟨⟨rfl, rfl⟩, ⟨rfl, rfl⟩, ⟨rfl, rfl⟩, ⟨rfl, rfl⟩, ⟨rfl, rfl⟩, ⟨rfl, rfl⟩,
    ⟨rfl, rfl⟩, ⟨rfl, rfl⟩, ?_, ?_⟩ <;> simp [renderEvents, renderEvent]

/-- C8: TableCell boundaries leave the render state unchanged; inside a
table, Text and Code events append to the existing row entry whenever it
is non-empty; the row buffer can never grow beyond one entry across any
event sequence; and a row whose buffer holds one cell is printed as
exactly one padded field between a single pair of border characters. -/
theorem c8_single_cell_invariant (a : Args) (s : RenderState) (t c : String)
    (es : List Event) :
    (renderEvent a s (.start .tableCell)).1 = s ∧
    (renderEvent a s (.endTag .tableCell)).1 = s ∧
    (s.in_table = true → s.current_row_cells ≠ [] →
      (renderEvent a s (.text t)).1.current_row_cells =
        appendLast s.current_row_cells t ∧
      (renderEvent a s (.code c)).1.current_row_cells =
        appendLast s.current_row_cells ("`" ++ c ++ "`")) ∧
    (s.current_row_cells.length ≤ 1 →
      (renderEvents a s es).1.current_row_cells.length ≤ 1) ∧
    (∀ cell, s.current_row_cells = [cell] → s.is_header_row = false →
      (renderEvent a s (.endTag .tableRow)).2 =
        [.color .tableBorderColor, .str "|", .reset,
          .str (fmtCell (s.table_alignments.get? 0)
            ((widenWidths s.column_widths [cell]).getD 0 0) cell),
          .color .tableBorderColor, .str "|", .reset, .str "\n"]) := by
  refine ⟨rfl, rfl, ?_, renderEvents_cells_length a es s, ?_⟩
  · intro hin hne
    have hne2 : s.current_row_cells.isEmpty = false := by
      simp [List.isEmpty_iff, hne]
    exact ⟨by simp [renderEvent, hin, hne2], by simp [renderEvent, hin, hne2]⟩
  · intro cell hcell hhdr
    simp [renderEvent, hcell, hhdr, rowCellsOut]

/-- C8 witness: the single-cell behavior at a concrete in-table state. -/
theorem c8_single_cell_invariant_witness :
    (renderEvent { symbol := false, center := 0 }
      { initState with in_table := true, current_row_cells := ["a"] }
      (.text "b")).1.current_row_cells = appendLast ["a"] "b" ∧
    (renderEvents { symbol := false, center := 0 }
      { initState with in_table := true, current_row_cells := ["a"] }
      [.start .tableCell, .text "b", .endTag .tableCell]).1.current_row_cells.length ≤ 1 ∧
    (renderEvent { symbol := false, center := 0 }
      { initState with in_table := true, current_row_cells := ["a"] }
      (.endTag .tableRow)).2 =
      [.color .tableBorderColor, .str "|", .reset,
        .str (fmtCell (([] : List Alignment).get? 0)
          ((widenWidths [] ["a"]).getD 0 0) "a"),
        .color .tableBorderColor, .str "|", .reset, .str "\n"] := by
  have h := c8_single_cell_invariant { symbol := false, center := 0 }
    { initState with in_table := true, current_row_cells := ["a"] } "b" "c"
    [.start .tableCell, .text "b", .endTag .tableCell]
  exact ⟨(h.2.2.1 rfl (by decide)).1, h.2.2.2.1 (by decide), h.2.2.2.2 "a" rfl rfl⟩

/-- C9: a Text event arriving while a table is open and the row buffer
is empty both writes its text to the output immediately and pushes it
into the row buffer, and the subsequent row-end output contains the same
text again, surrounded only by space padding. -/
theorem c9_table_text_twice (a : Args) (s : RenderState) (t : String)
    (hin : s.in_table = true) (hempty : s.current_row_cells = []) :
    (renderEvent a s (.text t)).2 = [.str t] ∧
    (renderEvent a s (.text t)).1.current_row_cells = [t] ∧
    ∃ p q, Out.str (p ++ t ++ q) ∈
      (renderEvent a (renderEvent a s (.text t)).1 (.endTag .tableRow)).2 := by
  have hcells : (renderEvent a s (.text t)).1.current_row_cells = [t] := by
    simp [renderEvent, hin, hempty]
  exact ⟨by simp [renderEvent, hin, hempty], hcells, rowOut_mem_str a _ t hcells⟩

/-- C9 witness: the doubled text at a concrete in-table state. -/
theorem c9_table_text_twice_witness :
    (renderEvent { symbol := false, center := 0 } { initState with in_table := true }
      (.text "Ann")).2 = [.str "Ann"] ∧
    (renderEvent { symbol := false, center := 0 } { initState with in_table := true }
      (.text "Ann")).1.current_row_cells = ["Ann"] ∧
    ∃ p q, Out.str (p ++ "Ann" ++ q) ∈
      (renderEvent { symbol := false, center := 0 }
        (renderEvent { symbol := false, center := 0 } { initState with in_table := true }
          (.text "Ann")).1 (.endTag .tableRow)).2 :=
  c9_table_text_twice { symbol := false, center := 0 }
    { initState with in_table := true } "Ann" rfl rfl

/-- C10: an inline Code event outside a code block and outside a table
sets the `in_code` flag, and a Text event in a state with that flag set
(and not in a table) emits exactly one literal tilde immediately before
its text and clears the flag — for both values of the symbol flag. -/
theorem c10_tilde_flush (a : Args) (s s2 : RenderState) (c t : String)
    (h1 : s.in_code_block = false) (h2 : s.in_table = false)
    (h3 : s2.in_code = true) (h4 : s2.in_table = false) :
    (renderEvent a s (.code c)).1.in_code = true ∧
    (renderEvent a s2 (.text t)).2 = [.str "~", .str t] ∧
    (renderEvent a s2 (.text t)).1.in_code = false := by
  refine ⟨?_, ?_, ?_⟩
  · simp [renderEvent, h1, h2]
  · simp [renderEvent, h3, h4]
  · simp [renderEvent, h3, h4]

/-- C10 witness: the tilde flush at concrete states. -/
theorem c10_tilde_flush_witness :
    (renderEvent { symbol := false, center := 0 } initState (.code "x")).1.in_code = true ∧
    (renderEvent { symbol := false, center := 0 }
      { initState with in_code := true } (.text "y")).2 = [.str "~", .str "y"] ∧
    (renderEvent { symbol := false, center := 0 }
      { initState with in_code := true } (.text "y")).1.in_code = false :=
  c10_tilde_flush { symbol := false, center := 0 } initState
    { initState with in_code := true } "x" "y" rfl rfl rfl rfl

end MdPreview
